import Mathlib

/-!
Shallow embedding of the checkout / order-status / payment-settlement core of
the go-commerce-api repository, together with theorems settling the spec
claims about it.

The embedding follows the Go source:
* `internal/product/entity/product.go` and
  `internal/product/repository/product_repository.go` /
  `internal/product/service/product_service.go` (stock ledger),
* the order entity and `orderService` (checkout, cancel, status updates,
  mark-as-paid),
* the payment entity, `paymentRepository` and `paymentService`
  (create payment, async settlement, gateway callback).

Persistence is modelled as in-memory lists kept in row-creation order
(GORM's `First` returns the row with the smallest primary key, which is the
first match in a creation-ordered list).  Monetary amounts (`float64`,
`decimal(12,2)` columns) are modelled as rationals; Go `int` quantities and
stock as `Int`.  A crucial point kept faithful to the source: in
`orderService.Checkout` and `orderService.CancelOrder` the calls into the
product service run on the product service's own DB handle, *not* on the
`tx` opened by the order service, so stock writes are committed immediately
and are not covered by the order-side rollback.
-/

namespace GoCommerce

deriving instance DecidableEq for Except

/-- Domain error values (`errors.New` values of the order, product and
payment services). -/
inductive Err where
  | orderNotFound
  | unauthorized
  | invalidStatus
  | productNotFound
  | insufficientStock
  | emptyCart
  | orderNotCancellable
  | paymentNotFound
  | orderNotPending
  | paymentAlreadyExists
  | invalidPaymentMethod
  | paymentAlreadyProcessed
  deriving DecidableEq, Repr

/-- `entity.Product` (id, price, stock; the other columns play no role in
the claims). -/
structure Product where
  id : Nat
  price : ℚ
  stock : Int
  deriving DecidableEq, Repr

/-- `Product.HasStock`: `p.Stock >= quantity`. -/
def Product.hasStock (p : Product) (quantity : Int) : Bool :=
  p.stock ≥ quantity

/-- The products table. -/
abbrev Products := List Product

/-- `productRepository.FindByID` (`First` by primary key). -/
def findProduct (ps : Products) (id : Nat) : Option Product :=
  ps.find? (fun p => p.id = id)

/-- Effect of the `UPDATE products SET stock = stock + ? WHERE id = ?`
statement on a single row. -/
def updRow (id : Nat) (quantity : Int) (p : Product) : Product :=
  if p.id = id then { p with stock := p.stock + quantity } else p

/-- `productRepository.UpdateStock`:
`UPDATE products SET stock = stock + quantity WHERE id = ?`. -/
def updateStockRow (ps : Products) (id : Nat) (quantity : Int) : Products :=
  ps.map (updRow id quantity)

/-- `productService.ReduceStock`: find the product (`ErrProductNotFound` if
absent), check `HasStock` (`ErrInsufficientStock` if not), then
`UpdateStock(productID, -quantity)`.  Returns the resulting table and the
error, if any. -/
def reduceStock (ps : Products) (productID : Nat) (quantity : Int) :
    Products × Option Err :=
  match findProduct ps productID with
  | none => (ps, some .productNotFound)
  | some product =>
    if product.hasStock quantity then
      (updateStockRow ps productID (-quantity), none)
    else
      (ps, some .insufficientStock)

/-- `productService.RestoreStock`: `UpdateStock(productID, quantity)`;
it has no failing branch (the `UPDATE ... SET stock = stock + ?` statement
succeeds even when no row matches). -/
def restoreStock (ps : Products) (productID : Nat) (quantity : Int) : Products :=
  updateStockRow ps productID quantity

/- ### Basic lemmas about the stock ledger -/

theorem findProduct_updateStockRow_self {ps : Products} {id : Nat} {p : Product}
    (h : findProduct ps id = some p) (d : Int) :
    findProduct (updateStockRow ps id d) id = some { p with stock := p.stock + d } := by
  induction ps with
  | nil => simp [findProduct] at h
  | cons q ps ih =>
    by_cases hq : q.id = id
    · rw [findProduct, List.find?_cons_of_pos _ (by simp [hq])] at h
      injection h with h
      subst h
      simp only [updateStockRow, List.map_cons, updRow, if_pos hq]
      rw [findProduct, List.find?_cons_of_pos _ (by simp [hq])]
    · rw [findProduct, List.find?_cons_of_neg _ (by simp [hq])] at h
      have := ih h
      simp only [updateStockRow, List.map_cons, updRow, if_neg hq]
      rw [findProduct, List.find?_cons_of_neg _ (by simp [hq])]
      exact this

theorem findProduct_updateStockRow_other {ps : Products} {id id' : Nat}
    (hne : id' ≠ id) (d : Int) :
    findProduct (updateStockRow ps id d) id' = findProduct ps id' := by
  induction ps with
  | nil => simp [findProduct, updateStockRow]
  | cons q ps ih =>
    by_cases hq : q.id = id
    · have hq' : ¬ (q.id = id') := fun hcontra => hne (hcontra ▸ hq ▸ rfl)
      simp only [updateStockRow, List.map_cons, updRow, if_pos hq]
      rw [findProduct, List.find?_cons_of_neg _ (by simp [hq']),
        findProduct, List.find?_cons_of_neg _ (by simp [hq'])]
      exact ih
    · simp only [updateStockRow, List.map_cons, updRow, if_neg hq]
      by_cases hq' : q.id = id'
      · rw [findProduct, List.find?_cons_of_pos _ (by simp [hq']),
          findProduct, List.find?_cons_of_pos _ (by simp [hq'])]
      · rw [findProduct, List.find?_cons_of_neg _ (by simp [hq']),
          findProduct, List.find?_cons_of_neg _ (by simp [hq'])]
        exact ih

/- ### Order entity (order entity source file) -/

/-- `entity.OrderItem` (product reference, quantity, snapshot price,
subtotal). -/
structure OrderItem where
  productID : Nat
  quantity : Int
  price : ℚ
  subtotal : ℚ
  deriving DecidableEq, Repr

/-- `entity.Order` (identity, owner, total, status string, address, notes,
items).  Status strings are the persisted enum vocabulary
`PENDING / PAID / SHIPPED / COMPLETED / CANCELLED`. -/
structure Order where
  id : Nat
  userID : Nat
  totalAmount : ℚ
  status : String
  shippingAddr : String
  notes : String
  items : List OrderItem
  deriving DecidableEq, Repr

/-- `Order.IsOwner`. -/
def Order.isOwner (o : Order) (userID : Nat) : Bool := o.userID = userID

/-- `Order.IsPending`. -/
def Order.isPending (o : Order) : Bool := o.status = "PENDING"

/-- `Order.CanBeCancelled`. -/
def Order.canBeCancelled (o : Order) : Bool := o.status = "PENDING"

/-- `Order.CanBeShipped`. -/
def Order.canBeShipped (o : Order) : Bool := o.status = "PAID"

/-- `Order.CanBeCompleted`. -/
def Order.canBeCompleted (o : Order) : Bool := o.status = "SHIPPED"

/-- `Order.UpdateStatus`: the switch over the requested status string;
returns the (possibly) updated order and whether the transition was
accepted.  The Go method mutates the receiver and returns `bool`. -/
def Order.updateStatus (o : Order) (newStatus : String) : Order × Bool :=
  if newStatus = "PAID" then
    if o.isPending then ({ o with status := "PAID" }, true) else (o, false)
  else if newStatus = "SHIPPED" then
    if o.canBeShipped then ({ o with status := "SHIPPED" }, true) else (o, false)
  else if newStatus = "COMPLETED" then
    if o.canBeCompleted then ({ o with status := "COMPLETED" }, true) else (o, false)
  else if newStatus = "CANCELLED" then
    if o.canBeCancelled then ({ o with status := "CANCELLED" }, true) else (o, false)
  else
    (o, false)

/- ### Order service state and operations (order service source file) -/

/-- `dto.OrderItemRequest`.  At the HTTP boundary the binding tag
`binding:"required,gt=0"` rejects non-positive quantities before the
service is reached. -/
structure OrderItemRequest where
  productID : Nat
  quantity : Int
  deriving DecidableEq, Repr

/-- `dto.CheckoutRequest`. -/
structure CheckoutRequest where
  items : List OrderItemRequest
  shippingAddress : String
  notes : String
  deriving Repr

/-- Database state seen by the order service: the products table, the
orders table (with their items) and the next primary key for orders. -/
structure OrderSt where
  products : Products
  orders : List Order
  nextOrderID : Nat
  deriving DecidableEq, Repr

/-- `orderRepository.FindByID` / `FindByIDWithItems` (`First` by primary
key; the model always carries the items). -/
def findOrder (st : OrderSt) (orderID : Nat) : Option Order :=
  st.orders.find? (fun o => o.id = orderID)

/-- `orderRepository.Update` (`db.Save`): replace the row with the same
primary key. -/
def saveOrder (orders : List Order) (o : Order) : List Order :=
  orders.map (fun x => if x.id = o.id then o else x)

/-- The per-item loop of `orderService.Checkout`: for each request item,
`GetProductByID` (`ErrProductNotFound` on failure), `HasStock`
(`ErrInsufficientStock`), `ReduceStock`, then build the `OrderItem` with
`subtotal = product.Price * quantity` and accumulate the total.
`ReduceStock` runs on the product service's own DB handle, so the returned
products table reflects every reduction applied before a failure. -/
def checkoutLoop (ps : Products) (reqItems : List OrderItemRequest)
    (acc : List OrderItem) (total : ℚ) :
    Products × Except Err (List OrderItem × ℚ) :=
  match reqItems with
  | [] => (ps, .ok (acc, total))
  | item :: rest =>
    match findProduct ps item.productID with
    | none => (ps, .error .productNotFound)
    | some product =>
      if product.hasStock item.quantity then
        match reduceStock ps item.productID item.quantity with
        | (ps', some e) => (ps', .error e)
        | (ps', none) =>
          let subtotal := product.price * (item.quantity : ℚ)
          checkoutLoop ps' rest
            (acc ++ [{ productID := item.productID, quantity := item.quantity,
                       price := product.price, subtotal := subtotal }])
            (total + subtotal)
      else
        (ps, .error .insufficientStock)

/-- `orderService.Checkout`.  The `tx` opened by the service covers only
the order insert; the stock reductions performed inside the loop are
committed on the product service's handle, so on failure the partially
reduced products table persists while no order row is created. -/
def checkout (st : OrderSt) (userID : Nat) (req : CheckoutRequest) :
    OrderSt × Except Err Order :=
  if req.items.length = 0 then (st, .error .emptyCart)
  else
    match checkoutLoop st.products req.items [] 0 with
    | (ps', .error e) => ({ st with products := ps' }, .error e)
    | (ps', .ok (orderItems, totalAmount)) =>
      let order : Order :=
        { id := st.nextOrderID, userID := userID, totalAmount := totalAmount,
          status := "PENDING", shippingAddr := req.shippingAddress,
          notes := req.notes, items := orderItems }
      ({ st with
          products := ps'
          orders := st.orders ++ [order]
          nextOrderID := st.nextOrderID + 1 }, .ok order)

/-- `orderService.UpdateOrderStatus`: lookup (`ErrOrderNotFound`), the
ownership guard `!isAdmin && !order.IsOwner(userID)` (`ErrUnauthorized`),
then `Order.UpdateStatus` (`ErrInvalidStatus` when rejected) and
`orderRepo.Update`. -/
def updateOrderStatus (st : OrderSt) (userID orderID : Nat) (status : String)
    (isAdmin : Bool) : OrderSt × Except Err Order :=
  match findOrder st orderID with
  | none => (st, .error .orderNotFound)
  | some order =>
    if !isAdmin && !(order.isOwner userID) then
      (st, .error .unauthorized)
    else
      match order.updateStatus status with
      | (_, false) => (st, .error .invalidStatus)
      | (order', true) =>
        ({ st with orders := saveOrder st.orders order' }, .ok order')

/-- `orderService.CancelOrder`: lookup, ownership, `CanBeCancelled`; then
`RestoreStock` per item (on the product service's handle) and the status
update to CANCELLED inside the service's `tx`.  `RestoreStock` has no
failing branch, so the success path always commits. -/
def cancelOrder (st : OrderSt) (userID orderID : Nat) : OrderSt × Option Err :=
  match findOrder st orderID with
  | none => (st, some .orderNotFound)
  | some order =>
    if !(order.isOwner userID) then
      (st, some .unauthorized)
    else if !order.canBeCancelled then
      (st, some .orderNotCancellable)
    else
      let ps' := order.items.foldl
        (fun ps it => restoreStock ps it.productID it.quantity) st.products
      let order' := { order with status := "CANCELLED" }
      ({ st with products := ps', orders := saveOrder st.orders order' }, none)

/-- `orderService.MarkAsPaid` (called by the payment module):
`ErrOrderNotFound` on missing order, `ErrInvalidStatus` when the order is
not PENDING, otherwise set status PAID and save. -/
def markAsPaid (st : OrderSt) (orderID : Nat) : OrderSt × Option Err :=
  match findOrder st orderID with
  | none => (st, some .orderNotFound)
  | some order =>
    if !order.isPending then
      (st, some .invalidStatus)
    else
      ({ st with orders := saveOrder st.orders { order with status := "PAID" } }, none)

/- ### Payment entity, repository and service (payment entity /
`payment_repository` / `payment_service` source files) -/

/-- `entity.Payment`.  `paidAt` carries the abstract wall-clock instant
passed to `MarkAsSuccess` (`time.Now()` in Go). -/
structure Payment where
  id : Nat
  orderID : Nat
  userID : Nat
  amount : ℚ
  method : String
  status : String
  transactionID : String
  paidAt : Option Nat
  failedReason : String
  deriving DecidableEq, Repr

/-- `Payment.IsPending`. -/
def Payment.isPending (p : Payment) : Bool := p.status = "PENDING"

/-- `Payment.IsProcessing`. -/
def Payment.isProcessing (p : Payment) : Bool := p.status = "PROCESSING"

/-- `Payment.IsSuccess`. -/
def Payment.isSuccess (p : Payment) : Bool := p.status = "SUCCESS"

/-- `Payment.IsFailed`. -/
def Payment.isFailed (p : Payment) : Bool := p.status = "FAILED"

/-- `Payment.MarkAsProcessing`. -/
def Payment.markAsProcessing (p : Payment) : Payment :=
  { p with status := "PROCESSING" }

/-- `Payment.MarkAsSuccess` (`time.Now()` modelled by the `now`
parameter). -/
def Payment.markAsSuccess (p : Payment) (now : Nat) : Payment :=
  { p with
      status := "SUCCESS"
      paidAt := some now }

/-- `Payment.MarkAsFailed`. -/
def Payment.markAsFailed (p : Payment) (reason : String) : Payment :=
  { p with
      status := "FAILED"
      failedReason := reason }

/-- `entity.IsValidMethod`. -/
def isValidMethod (method : String) : Bool :=
  method = "BANK_TRANSFER" || method = "CREDIT_CARD" || method = "E_WALLET"

/-- The payments table, rows in creation (primary-key) order, plus the
next primary key. -/
structure PaymentSt where
  payments : List Payment
  nextPaymentID : Nat
  deriving DecidableEq, Repr

/-- `paymentRepository.FindByID`. -/
def findPaymentByID (pays : List Payment) (id : Nat) : Option Payment :=
  pays.find? (fun p => p.id = id)

/-- `paymentRepository.FindByOrderID`: GORM `First` with
`order_id = ?` — the matching row with the smallest primary key. -/
def findPaymentByOrderID (pays : List Payment) (orderID : Nat) : Option Payment :=
  pays.find? (fun p => p.orderID = orderID)

/-- `paymentRepository.FindByTransactionID` (`transaction_id` has a
unique index). -/
def findPaymentByTransactionID (pays : List Payment) (transactionID : String) :
    Option Payment :=
  pays.find? (fun p => p.transactionID = transactionID)

/-- `paymentRepository.Update` (`db.Save`): replace the row with the same
primary key. -/
def savePayment (pays : List Payment) (p : Payment) : List Payment :=
  pays.map (fun x => if x.id = p.id then p else x)

/-- `dto.CreatePaymentRequest`: the request carries only the order id and
the method — there is no client-supplied amount field at all. -/
structure CreatePaymentRequest where
  orderID : Nat
  method : String
  deriving Repr

/-- `orderService.GetOrder` (used by `CreatePayment`): lookup plus the
ownership check. -/
def getOrder (st : OrderSt) (userID orderID : Nat) : Except Err Order :=
  match findOrder st orderID with
  | none => .error .orderNotFound
  | some o =>
    if !(o.isOwner userID) then .error .unauthorized else .ok o

/-- `paymentService.CreatePayment` (synchronous part; the goroutine
launched afterwards is `settlementPhase1` / `settlementPhase2` below).
Order of checks as in the source: method validity, the duplicate guard
(`FindByOrderID` + `!IsFailed`), `orderService.GetOrder` (every error
mapped to `ErrOrderNotFound`), the PENDING check; then the payment row is
created with `Amount: order.TotalAmount` and status PENDING.  The
generated transaction id (`TXN-<nanos>-<rand>`) is a parameter. -/
def createPayment (pst : PaymentSt) (ost : OrderSt) (userID : Nat)
    (req : CreatePaymentRequest) (transactionID : String) :
    PaymentSt × Except Err Payment :=
  if !(isValidMethod req.method) then
    (pst, .error .invalidPaymentMethod)
  else if (match findPaymentByOrderID pst.payments req.orderID with
           | some existing => !existing.isFailed
           | none => false) then
    (pst, .error .paymentAlreadyExists)
  else
    match getOrder ost userID req.orderID with
    | .error _ => (pst, .error .orderNotFound)
    | .ok order =>
      if order.status ≠ "PENDING" then
        (pst, .error .orderNotPending)
      else
        let payment : Payment :=
          { id := pst.nextPaymentID, orderID := req.orderID, userID := userID,
            amount := order.totalAmount, method := req.method,
            status := "PENDING", transactionID := transactionID,
            paidAt := none, failedReason := "" }
        ({ payments := pst.payments ++ [payment]
           nextPaymentID := pst.nextPaymentID + 1 }, .ok payment)

/-- First half of `paymentService.processPaymentAsync`, up to the
simulated gateway delay: `FindByID`, `MarkAsProcessing`, `Update`.
Returns the task's in-memory copy of the row, which the second half will
save unconditionally after the delay. -/
def settlementPhase1 (pst : PaymentSt) (paymentID : Nat) :
    PaymentSt × Option Payment :=
  match findPaymentByID pst.payments paymentID with
  | none => (pst, none)
  | some payment =>
    let copy := payment.markAsProcessing
    ({ pst with payments := savePayment pst.payments copy }, some copy)

/-- Second half of `processPaymentAsync`, after the delay: depending on
the simulated outcome, `MarkAsSuccess` + `Update` + `MarkAsPaid` on the
order, or `MarkAsFailed` + `Update`.  The `Update` is `db.Save` of the
task's in-memory copy — unconditional, with no re-read and no check of
the row's current status. -/
def settlementPhase2 (pst : PaymentSt) (ost : OrderSt) (copy : Payment)
    (isSuccess : Bool) (now : Nat) : PaymentSt × OrderSt :=
  if isSuccess then
    let p' := copy.markAsSuccess now
    let pst' := { pst with payments := savePayment pst.payments p' }
    ((pst', (markAsPaid ost p'.orderID).1))
  else
    let p' := copy.markAsFailed "Payment declined by gateway (simulated)"
    ({ pst with payments := savePayment pst.payments p' }, ost)

/-- `paymentService.ProcessPaymentCallback`: lookup by transaction id
(`ErrPaymentNotFound`), the terminal guard
(`IsSuccess() || IsFailed()` → `ErrPaymentAlreadyProcessed`), then the
success transition (`MarkAsSuccess`, `Update`, `orderService.MarkAsPaid`)
when the given status is `"SUCCESS"`, else the failure transition
(`MarkAsFailed(failedReason)`, `Update`). -/
def processPaymentCallback (pst : PaymentSt) (ost : OrderSt)
    (transactionID status failedReason : String) (now : Nat) :
    PaymentSt × OrderSt × Option Err :=
  match findPaymentByTransactionID pst.payments transactionID with
  | none => (pst, ost, some .paymentNotFound)
  | some payment =>
    if payment.isSuccess || payment.isFailed then
      (pst, ost, some .paymentAlreadyProcessed)
    else if status = "SUCCESS" then
      let p' := payment.markAsSuccess now
      let pst' := { pst with payments := savePayment pst.payments p' }
      let (ost', err) := markAsPaid ost payment.orderID
      (pst', ost', err)
    else
      let p' := payment.markAsFailed failedReason
      ({ pst with payments := savePayment pst.payments p' }, ost, none)

/-! ## Claim theorems -/

/-- C7: for a product present in the table, `ReduceStock` fails with
`InsufficientStock` when current stock is below the requested quantity
(leaving the table unchanged), and otherwise decrements that product's
stock by exactly the quantity while touching no other product;
`RestoreStock` increments the stock by exactly the quantity, touches no
other product, and has no failure outcome. -/
theorem C7_stock_ledger_contract (ps : Products) (productID : Nat) (qty : Int)
    (p : Product) (h : findProduct ps productID = some p) :
    (p.stock < qty → reduceStock ps productID qty = (ps, some .insufficientStock))
    ∧ (qty ≤ p.stock →
        (reduceStock ps productID qty).2 = none
        ∧ findProduct (reduceStock ps productID qty).1 productID
            = some { p with stock := p.stock - qty }
        ∧ ∀ id', id' ≠ productID →
            findProduct (reduceStock ps productID qty).1 id' = findProduct ps id')
    ∧ (findProduct (restoreStock ps productID qty) productID
          = some { p with stock := p.stock + qty })
    ∧ (∀ id', id' ≠ productID →
        findProduct (restoreStock ps productID qty) id' = findProduct ps id') := by
  refine ⟨fun hlt => ?_, fun hge => ⟨?_, ?_, fun id' hne => ?_⟩, ?_, fun id' hne => ?_⟩
  · have hb : p.hasStock qty = false := by
      simp [Product.hasStock]
      omega
    simp [reduceStock, h, hb]
  · have hb : p.hasStock qty = true := by
      simp [Product.hasStock]
      omega
    simp [reduceStock, h, hb]
  · have hb : p.hasStock qty = true := by
      simp [Product.hasStock]
      omega
    have := findProduct_updateStockRow_self h (-qty)
    simp only [reduceStock, h, hb, if_true]
    simpa [sub_eq_add_neg] using this
  · have hb : p.hasStock qty = true := by
      simp [Product.hasStock]
      omega
    simp only [reduceStock, h, hb, if_true]
    exact findProduct_updateStockRow_other hne (-qty)
  · simpa using findProduct_updateStockRow_self h qty
  · exact findProduct_updateStockRow_other hne qty

/-- Witness for C7 at a concrete input: a table with one product of
stock 2; reducing by 3 fails with `InsufficientStock`, reducing by 2
succeeds leaving stock 0, restoring 4 yields stock 6. -/
theorem C7_stock_ledger_contract_witness :
    reduceStock [{ id := 1, price := 5, stock := 2 }] 1 3
      = ([{ id := 1, price := 5, stock := 2 }], some .insufficientStock)
    ∧ findProduct (reduceStock [{ id := 1, price := 5, stock := 2 }] 1 2).1 1
      = some { id := 1, price := 5, stock := 0 }
    ∧ findProduct (restoreStock [{ id := 1, price := 5, stock := 2 }] 1 4) 1
      = some { id := 1, price := 5, stock := 6 } := by
  have h := C7_stock_ledger_contract [{ id := 1, price := 5, stock := 2 }] 1 3
    { id := 1, price := 5, stock := 2 } (by decide)
  have h2 := C7_stock_ledger_contract [{ id := 1, price := 5, stock := 2 }] 1 2
    { id := 1, price := 5, stock := 2 } (by decide)
  have h4 := C7_stock_ledger_contract [{ id := 1, price := 5, stock := 2 }] 1 4
    { id := 1, price := 5, stock := 2 } (by decide)
  refine ⟨h.1 (by decide), ?_, ?_⟩
  · have := (h2.2.1 (by decide)).2.1
    simpa using this
  · simpa using h4.2.2.1

/-- C1 (checkout atomicity, code bug): at the failing input below —
product 1 with stock 5, a two-item cart whose second item names the
missing product 2 — the checkout fails with `ProductNotFound` and creates
no order, but the stock reduction already applied for item 1 persists:
product 1 is left with stock 3, not its pre-checkout stock 5.  The stock
writes run on the product service's own DB handle, outside the `tx` the
order service rolls back, so the claimed all-or-nothing behavior does not
hold in the code. -/
theorem C1_checkout_not_atomic :
    (checkout { products := [{ id := 1, price := 5, stock := 5 }],
                orders := [], nextOrderID := 1 } 10
       { items := [{ productID := 1, quantity := 2 },
                   { productID := 2, quantity := 1 }],
         shippingAddress := "addr", notes := "" }).2
        = .error .productNotFound
    ∧ (checkout { products := [{ id := 1, price := 5, stock := 5 }],
                  orders := [], nextOrderID := 1 } 10
         { items := [{ productID := 1, quantity := 2 },
                     { productID := 2, quantity := 1 }],
           shippingAddress := "addr", notes := "" }).1.orders = []
    ∧ (checkout { products := [{ id := 1, price := 5, stock := 5 }],
                  orders := [], nextOrderID := 1 } 10
         { items := [{ productID := 1, quantity := 2 },
                     { productID := 2, quantity := 1 }],
           shippingAddress := "addr", notes := "" }).1.products
        = [{ id := 1, price := 5, stock := 3 }] := by
  refine ⟨by rfl, by rfl, by decide⟩

/-- C3: a requested status transition is accepted exactly for the four
legal edges PENDING→PAID, PAID→SHIPPED, SHIPPED→COMPLETED and
PENDING→CANCELLED; an accepted transition only rewrites the status to the
requested value, a rejected one leaves the order unchanged and surfaces
`InvalidStatusTransition` from the service (which then performs no save);
and `MarkAsPaid` on an order that is not PENDING fails with
`InvalidStatusTransition` leaving the state unchanged. -/
theorem C3_status_transitions (o : Order) (s : String) :
    ((o.updateStatus s).2 = true ↔
      ((s = "PAID" ∧ o.status = "PENDING")
        ∨ (s = "SHIPPED" ∧ o.status = "PAID")
        ∨ (s = "COMPLETED" ∧ o.status = "SHIPPED")
        ∨ (s = "CANCELLED" ∧ o.status = "PENDING")))
    ∧ ((o.updateStatus s).2 = true → (o.updateStatus s).1 = { o with status := s })
    ∧ ((o.updateStatus s).2 = false → (o.updateStatus s).1 = o)
    ∧ (∀ st userID orderID isAdmin,
        findOrder st orderID = some o →
        (isAdmin || o.isOwner userID) = true →
        (o.updateStatus s).2 = false →
        updateOrderStatus st userID orderID s isAdmin = (st, .error .invalidStatus))
    ∧ (∀ st orderID,
        findOrder st orderID = some o → o.status ≠ "PENDING" →
        markAsPaid st orderID = (st, some .invalidStatus)) := by
  refine ⟨?_, ?_, ?_, ?_, ?_⟩
  · unfold Order.updateStatus Order.isPending Order.canBeShipped
      Order.canBeCompleted Order.canBeCancelled
    split_ifs <;> simp_all
  · unfold Order.updateStatus Order.isPending Order.canBeShipped
      Order.canBeCompleted Order.canBeCancelled
    split_ifs <;> simp_all
  · unfold Order.updateStatus Order.isPending Order.canBeShipped
      Order.canBeCompleted Order.canBeCancelled
    split_ifs <;> simp_all
  · intro st userID orderID isAdmin hfind hguard hrej
    have hg : (!isAdmin && !(o.isOwner userID)) = false := by
      cases isAdmin <;> cases hiso : o.isOwner userID <;> simp_all
    rcases hus : o.updateStatus s with ⟨o', b⟩
    have hb : b = false := by rw [hus] at hrej; exact hrej
    subst hb
    simp [updateOrderStatus, hfind, hg, hus]
  · intro st orderID hfind hnp
    have hp : o.isPending = false := by simp [Order.isPending, hnp]
    simp [markAsPaid, hfind, hp]

/-- A concrete order fixture (id 1, owned by user 2, no items) with the
given status, used by witnesses. -/
def sampleOrder (status : String) : Order :=
  { id := 1
    userID := 2
    totalAmount := 0
    status := status
    shippingAddr := ""
    notes := ""
    items := [] }

/-- A one-order state holding `sampleOrder status`, used by witnesses. -/
def sampleOrderSt (status : String) : OrderSt :=
  { products := []
    orders := [sampleOrder status]
    nextOrderID := 2 }

/-- Witness for C3 at concrete orders: from PENDING, the PAID transition
is accepted and rewrites only the status; the SHIPPED transition is
rejected and leaves the order unchanged; `MarkAsPaid` on a SHIPPED order
fails with `InvalidStatusTransition` and does not change the state. -/
theorem C3_status_transitions_witness :
    ((sampleOrder "PENDING").updateStatus "PAID").2 = true
    ∧ ((sampleOrder "PENDING").updateStatus "SHIPPED").1 = sampleOrder "PENDING"
    ∧ markAsPaid (sampleOrderSt "SHIPPED") 1
      = (sampleOrderSt "SHIPPED", some .invalidStatus) := by
  refine ⟨?_, ?_, ?_⟩
  · exact (C3_status_transitions (sampleOrder "PENDING") "PAID").1.mpr
      (Or.inl ⟨rfl, rfl⟩)
  · exact (C3_status_transitions (sampleOrder "PENDING") "SHIPPED").2.2.1 (by decide)
  · exact (C3_status_transitions (sampleOrder "SHIPPED") "ignored").2.2.2.2
      (sampleOrderSt "SHIPPED") 1 (by decide) (by decide)

/-- C10: for an order's owner the admin flag is irrelevant —
`UpdateOrderStatus` behaves identically with `isAdmin` true or false —
and a non-admin owner can drive every legal edge, in particular
PENDING→PAID and PAID→SHIPPED; the admin flag only bypasses the
ownership check. -/
theorem C10_owner_can_drive_all_edges (st : OrderSt) (userID orderID : Nat)
    (s : String) (o : Order) (h : findOrder st orderID = some o)
    (hown : o.isOwner userID = true) :
    updateOrderStatus st userID orderID s false
      = updateOrderStatus st userID orderID s true
    ∧ ((o.updateStatus s).2 = true →
        updateOrderStatus st userID orderID s false
          = ({ st with orders := saveOrder st.orders (o.updateStatus s).1 },
             .ok (o.updateStatus s).1))
    ∧ (o.status = "PENDING" →
        (updateOrderStatus st userID orderID "PAID" false).2
          = .ok { o with status := "PAID" })
    ∧ (o.status = "PAID" →
        (updateOrderStatus st userID orderID "SHIPPED" false).2
          = .ok { o with status := "SHIPPED" }) := by
  refine ⟨?_, ?_, ?_, ?_⟩
  · simp [updateOrderStatus, h, hown]
  · intro hacc
    rcases hus : o.updateStatus s with ⟨o', b⟩
    have hb : b = true := by rw [hus] at hacc; exact hacc
    subst hb
    simp [updateOrderStatus, h, hown, hus]
  · intro hpend
    have hus : o.updateStatus "PAID" = ({ o with status := "PAID" }, true) := by
      simp [Order.updateStatus, Order.isPending, hpend]
    simp [updateOrderStatus, h, hown, hus]
  · intro hpaid
    have hus : o.updateStatus "SHIPPED" = ({ o with status := "SHIPPED" }, true) := by
      simp [Order.updateStatus, Order.canBeShipped, hpaid]
    simp [updateOrderStatus, h, hown, hus]

/-- Witness for C10: a non-admin owner moves their PENDING order to PAID
and then the PAID order to SHIPPED through `UpdateOrderStatus`. -/
theorem C10_owner_can_drive_all_edges_witness :
    (updateOrderStatus (sampleOrderSt "PENDING") 2 1 "PAID" false).2
      = .ok (sampleOrder "PAID")
    ∧ (updateOrderStatus (sampleOrderSt "PAID") 2 1 "SHIPPED" false).2
      = .ok (sampleOrder "SHIPPED") := by
  constructor
  · exact (C10_owner_can_drive_all_edges (sampleOrderSt "PENDING") 2 1 "PAID"
      (sampleOrder "PENDING") (by decide) (by decide)).2.2.1 rfl
  · exact (C10_owner_can_drive_all_edges (sampleOrderSt "PAID") 2 1 "SHIPPED"
      (sampleOrder "PAID") (by decide) (by decide)).2.2.2 rfl

/-- C6: `ProcessPaymentCallback` fails with `PaymentNotFound` when no
payment has the transaction id; fails with `PaymentAlreadyProcessed`
when the payment is terminal (SUCCESS or FAILED), leaving every store
unchanged; otherwise applies the success transition (`MarkAsSuccess` and
the order-side `MarkAsPaid`) when the given status is `"SUCCESS"`, and
the failure transition (`MarkAsFailed` with the given reason) for any
other status. -/
theorem C6_payment_callback (pst : PaymentSt) (ost : OrderSt)
    (tid status reason : String) (now : Nat) :
    (findPaymentByTransactionID pst.payments tid = none →
      processPaymentCallback pst ost tid status reason now
        = (pst, ost, some .paymentNotFound))
    ∧ (∀ p, findPaymentByTransactionID pst.payments tid = some p →
        (p.isSuccess || p.isFailed) = true →
        processPaymentCallback pst ost tid status reason now
          = (pst, ost, some .paymentAlreadyProcessed))
    ∧ (∀ p, findPaymentByTransactionID pst.payments tid = some p →
        (p.isSuccess || p.isFailed) = false → status = "SUCCESS" →
        processPaymentCallback pst ost tid status reason now
          = ({ pst with payments := savePayment pst.payments (p.markAsSuccess now) },
             (markAsPaid ost p.orderID).1, (markAsPaid ost p.orderID).2))
    ∧ (∀ p, findPaymentByTransactionID pst.payments tid = some p →
        (p.isSuccess || p.isFailed) = false → status ≠ "SUCCESS" →
        processPaymentCallback pst ost tid status reason now
          = ({ pst with payments := savePayment pst.payments (p.markAsFailed reason) },
             ost, none)) := by
  refine ⟨fun hnone => ?_, fun p hp hterm => ?_, fun p hp hnterm hs => ?_,
    fun p hp hnterm hs => ?_⟩
  · simp [processPaymentCallback, hnone]
  · simp [processPaymentCallback, hp, hterm]
  · simp [processPaymentCallback, hp, hnterm, hs]
  · simp [processPaymentCallback, hp, hnterm, hs]

/-- A concrete payment fixture (id 1, order 1, user 2, amount 300,
transaction id TXN-1) with the given status, used by witnesses. -/
def samplePayment (status : String) : Payment :=
  { id := 1
    orderID := 1
    userID := 2
    amount := 300
    method := "BANK_TRANSFER"
    status := status
    transactionID := "TXN-1"
    paidAt := none
    failedReason := "" }

/-- A one-payment store holding `samplePayment status`, used by
witnesses. -/
def samplePaymentSt (status : String) : PaymentSt :=
  { payments := [samplePayment status]
    nextPaymentID := 2 }

/-- Witness for C6 at concrete inputs: an unknown transaction id gives
`PaymentNotFound`; a SUCCESS payment gives `PaymentAlreadyProcessed` with
the stores untouched; a PROCESSING payment is resolved to FAILED with the
supplied reason by a FAILED callback. -/
theorem C6_payment_callback_witness :
    processPaymentCallback (samplePaymentSt "PENDING") (sampleOrderSt "PENDING")
      "TXN-unknown" "SUCCESS" "" 7
      = (samplePaymentSt "PENDING", sampleOrderSt "PENDING", some .paymentNotFound)
    ∧ processPaymentCallback (samplePaymentSt "SUCCESS") (sampleOrderSt "PENDING")
      "TXN-1" "FAILED" "late" 7
      = (samplePaymentSt "SUCCESS", sampleOrderSt "PENDING", some .paymentAlreadyProcessed)
    ∧ processPaymentCallback (samplePaymentSt "PROCESSING") (sampleOrderSt "PENDING")
      "TXN-1" "FAILED" "declined" 7
      = ({ payments := [(samplePayment "PROCESSING").markAsFailed "declined"]
           nextPaymentID := 2 },
         sampleOrderSt "PENDING", none) := by
  refine ⟨?_, ?_, ?_⟩
  · exact (C6_payment_callback (samplePaymentSt "PENDING") (sampleOrderSt "PENDING")
      "TXN-unknown" "SUCCESS" "" 7).1 (by decide)
  · exact (C6_payment_callback (samplePaymentSt "SUCCESS") (sampleOrderSt "PENDING")
      "TXN-1" "FAILED" "late" 7).2.1 (samplePayment "SUCCESS") (by decide) (by decide)
  · exact (C6_payment_callback (samplePaymentSt "PROCESSING") (sampleOrderSt "PENDING")
      "TXN-1" "FAILED" "declined" 7).2.2.2 (samplePayment "PROCESSING")
      (by decide) (by decide) (by decide)

/-- Positional constructor for payment rows in concrete statements. -/
def mkPayment (id orderID userID : Nat) (amount : ℚ)
    (method status transactionID : String) (paidAt : Option Nat)
    (failedReason : String) : Payment :=
  { id := id
    orderID := orderID
    userID := userID
    amount := amount
    method := method
    status := status
    transactionID := transactionID
    paidAt := paidAt
    failedReason := failedReason }

/-- Positional constructor for order rows in concrete statements. -/
def mkOrder (id userID : Nat) (totalAmount : ℚ) (status : String)
    (items : List OrderItem) : Order :=
  { id := id
    userID := userID
    totalAmount := totalAmount
    status := status
    shippingAddr := ""
    notes := ""
    items := items }

/-- C5 counterexample: the duplicate-payment guard reads only the
earliest payment row for the order (GORM `First` by primary key).  With
payment 1 (order 7) FAILED and payment 2 (order 7) PENDING — a state
reachable by a failed first attempt followed by a retry — a further
`CreatePayment` for order 7 does NOT fail with `PaymentAlreadyExists`
as the claim requires (a non-FAILED payment for the order exists), but
creates a third payment. -/
theorem C5_duplicate_guard_counterexample :
    (mkPayment 2 7 2 300 "BANK_TRANSFER" "PENDING" "TXN-B" none "").isFailed = false
    ∧ (createPayment
        { payments := [mkPayment 1 7 2 300 "BANK_TRANSFER" "FAILED" "TXN-A" none "declined",
                       mkPayment 2 7 2 300 "BANK_TRANSFER" "PENDING" "TXN-B" none ""]
          nextPaymentID := 3 }
        { products := [], orders := [mkOrder 7 2 300 "PENDING" []], nextOrderID := 8 }
        2 { orderID := 7, method := "BANK_TRANSFER" } "TXN-C").2
      = .ok (mkPayment 3 7 2 300 "BANK_TRANSFER" "PENDING" "TXN-C" none "") := by
  exact ⟨rfl, rfl⟩

/-- C5 (amended): `CreatePayment` fails with `InvalidPaymentMethod` for a
method outside the three recognized values; its duplicate guard inspects
only the earliest payment row for the order, failing with
`PaymentAlreadyExists` exactly when that earliest payment exists and is
non-FAILED (so an earliest FAILED payment permits a retry even if a later
non-FAILED payment exists); otherwise, for a PENDING order owned by the
caller, it appends and returns a payment in PENDING status whose amount
equals the order's total — the request carries no amount field at all. -/
theorem C5_create_payment_contract (pst : PaymentSt) (ost : OrderSt)
    (userID : Nat) (req : CreatePaymentRequest) (tid : String) :
    (isValidMethod req.method = false →
      createPayment pst ost userID req tid = (pst, .error .invalidPaymentMethod))
    ∧ (∀ p0, isValidMethod req.method = true →
        findPaymentByOrderID pst.payments req.orderID = some p0 →
        p0.isFailed = false →
        createPayment pst ost userID req tid = (pst, .error .paymentAlreadyExists))
    ∧ (∀ o, isValidMethod req.method = true →
        (match findPaymentByOrderID pst.payments req.orderID with
         | some p0 => p0.isFailed = true
         | none => True) →
        getOrder ost userID req.orderID = .ok o →
        o.status = "PENDING" →
        createPayment pst ost userID req tid
          = ({ payments := pst.payments ++
                [{ id := pst.nextPaymentID, orderID := req.orderID, userID := userID,
                   amount := o.totalAmount, method := req.method, status := "PENDING",
                   transactionID := tid, paidAt := none, failedReason := "" }]
               nextPaymentID := pst.nextPaymentID + 1 },
             .ok { id := pst.nextPaymentID, orderID := req.orderID, userID := userID,
                   amount := o.totalAmount, method := req.method, status := "PENDING",
                   transactionID := tid, paidAt := none, failedReason := "" })) := by
  refine ⟨fun hmethod => ?_, fun p0 hmethod hfind hnf => ?_,
    fun o hmethod hguard hord hpend => ?_⟩
  · simp [createPayment, hmethod]
  · simp [createPayment, hmethod, hfind, hnf]
  · have hg : (match findPaymentByOrderID pst.payments req.orderID with
        | some existing => !existing.isFailed
        | none => false) = false := by
      rcases hf : findPaymentByOrderID pst.payments req.orderID with _ | p0
      · simp
      · rw [hf] at hguard
        simp [hguard]
    simp [createPayment, hmethod, hg, hord, hpend]

/-- Witness for C5 (amended): an invalid method is rejected; with an
existing PENDING payment for order 1 a duplicate is rejected; with no
existing payment, a PENDING order with total 300 yields a PENDING payment
of amount 300. -/
theorem C5_create_payment_contract_witness :
    createPayment (samplePaymentSt "PENDING") (sampleOrderSt "PENDING") 2
      { orderID := 1, method := "CASH" } "TXN-9"
      = (samplePaymentSt "PENDING", .error .invalidPaymentMethod)
    ∧ createPayment (samplePaymentSt "PENDING") (sampleOrderSt "PENDING") 2
      { orderID := 1, method := "BANK_TRANSFER" } "TXN-9"
      = (samplePaymentSt "PENDING", .error .paymentAlreadyExists)
    ∧ ((createPayment { payments := [], nextPaymentID := 1 }
        { products := [], orders := [mkOrder 1 2 300 "PENDING" []], nextOrderID := 2 }
        2 { orderID := 1, method := "BANK_TRANSFER" } "TXN-9").2
      = .ok (mkPayment 1 1 2 300 "BANK_TRANSFER" "PENDING" "TXN-9" none "")) := by
  refine ⟨?_, ?_, ?_⟩
  · exact (C5_create_payment_contract (samplePaymentSt "PENDING")
      (sampleOrderSt "PENDING") 2 { orderID := 1, method := "CASH" } "TXN-9").1
      (by decide)
  · exact (C5_create_payment_contract (samplePaymentSt "PENDING")
      (sampleOrderSt "PENDING") 2 { orderID := 1, method := "BANK_TRANSFER" } "TXN-9").2.1
      (samplePayment "PENDING") (by decide) (by decide) (by decide)
  · have h := (C5_create_payment_contract { payments := [], nextPaymentID := 1 }
      { products := [], orders := [mkOrder 1 2 300 "PENDING" []], nextOrderID := 2 }
      2 { orderID := 1, method := "BANK_TRANSFER" } "TXN-9").2.2
      (mkOrder 1 2 300 "PENDING" [])
      (by decide) (by trivial) (by rfl) (by rfl)
    rw [h]
    rfl

/-- After `db.Save` of a row `p'` carrying the looked-up transaction id
and the primary key of the row previously found under that id, the lookup
by transaction id returns exactly `p'`. -/
theorem findPaymentByTransactionID_savePayment {pays : List Payment} {tid : String}
    {p : Payment} (h : findPaymentByTransactionID pays tid = some p)
    {p' : Payment} (hid : p'.id = p.id) (htid : p'.transactionID = tid) :
    findPaymentByTransactionID (savePayment pays p') tid = some p' := by
  induction pays with
  | nil => simp [findPaymentByTransactionID] at h
  | cons q qs ih =>
    by_cases hq : q.transactionID = tid
    · rw [findPaymentByTransactionID, List.find?_cons_of_pos _ (by simp [hq])] at h
      injection h with h
      subst h
      have hqid : q.id = p'.id := hid.symm
      simp only [savePayment, List.map_cons, if_pos hqid]
      rw [findPaymentByTransactionID, List.find?_cons_of_pos _ (by simp [htid])]
    · rw [findPaymentByTransactionID, List.find?_cons_of_neg _ (by simp [hq])] at h
      by_cases hqid : q.id = p'.id
      · simp only [savePayment, List.map_cons, if_pos hqid]
        rw [findPaymentByTransactionID, List.find?_cons_of_pos _ (by simp [htid])]
      · simp only [savePayment, List.map_cons, if_neg hqid]
        rw [findPaymentByTransactionID, List.find?_cons_of_neg _ (by simp [hq])]
        exact ih h

/-- A callback on a payment already in a terminal state returns
`PaymentAlreadyProcessed` and leaves both stores unchanged. -/
theorem processPaymentCallback_terminal {pst : PaymentSt} {ost : OrderSt}
    {tid : String} {p : Payment}
    (h : findPaymentByTransactionID pst.payments tid = some p)
    (hterm : (p.isSuccess || p.isFailed) = true) (s r : String) (n : Nat) :
    processPaymentCallback pst ost tid s r n
      = (pst, ost, some .paymentAlreadyProcessed) := by
  simp [processPaymentCallback, h, hterm]

/-- C2 counterexample: the settlement task's terminal update is an
unconditional `db.Save` of its in-memory copy, not a conditional write.
Concrete racing run on a PENDING payment (id 1, transaction TXN-1): the
task runs its first half (status → PROCESSING); during the simulated
delay a callback resolves the payment to FAILED and reports no error;
the task's second half then saves SUCCESS over the FAILED outcome.  Two
terminal statuses are written for one payment, and no contender
observes `PaymentAlreadyProcessed` — the claim's exactly-once /
conditional-write property does not hold in the code. -/
theorem C2_lost_update_counterexample :
    (settlementPhase1 (samplePaymentSt "PENDING") 1).2
      = some (samplePayment "PROCESSING")
    ∧ (processPaymentCallback (settlementPhase1 (samplePaymentSt "PENDING") 1).1
        (sampleOrderSt "PENDING") "TXN-1" "FAILED" "declined" 5).2.2 = none
    ∧ findPaymentByTransactionID
        (processPaymentCallback (settlementPhase1 (samplePaymentSt "PENDING") 1).1
          (sampleOrderSt "PENDING") "TXN-1" "FAILED" "declined" 5).1.payments "TXN-1"
      = some ((samplePayment "PROCESSING").markAsFailed "declined")
    ∧ findPaymentByTransactionID
        (settlementPhase2
          (processPaymentCallback (settlementPhase1 (samplePaymentSt "PENDING") 1).1
            (sampleOrderSt "PENDING") "TXN-1" "FAILED" "declined" 5).1
          (processPaymentCallback (settlementPhase1 (samplePaymentSt "PENDING") 1).1
            (sampleOrderSt "PENDING") "TXN-1" "FAILED" "declined" 5).2.1
          (samplePayment "PROCESSING") true 9).1.payments "TXN-1"
      = some ((samplePayment "PROCESSING").markAsSuccess 9) := by
  refine ⟨by decide, by decide, by decide, by decide⟩

/-- C2 (amended): `ProcessPaymentCallback` alone is exactly-once when the
two resolution attempts are serialized: the first callback on a
non-terminal payment writes one terminal status (SUCCESS for status
`"SUCCESS"`, else FAILED), and the second callback for the same
transaction id observes `PaymentAlreadyProcessed` and leaves both stores
unchanged.  The settlement task, by contrast, re-checks nothing before
its terminal write (see the counterexample), so the claim's guarantee
holds only for serialized callback-to-callback contention, not for the
task/callback race. -/
theorem C2_serialized_callbacks_exactly_once (pst : PaymentSt) (ost : OrderSt)
    (tid s1 r1 s2 r2 : String) (n1 n2 : Nat) (p : Payment)
    (hfind : findPaymentByTransactionID pst.payments tid = some p)
    (hnt : (p.isSuccess || p.isFailed) = false) :
    ((findPaymentByTransactionID
        (processPaymentCallback pst ost tid s1 r1 n1).1.payments tid).map Payment.status
      = some (if s1 = "SUCCESS" then "SUCCESS" else "FAILED"))
    ∧ processPaymentCallback (processPaymentCallback pst ost tid s1 r1 n1).1
        (processPaymentCallback pst ost tid s1 r1 n1).2.1 tid s2 r2 n2
      = ((processPaymentCallback pst ost tid s1 r1 n1).1,
         (processPaymentCallback pst ost tid s1 r1 n1).2.1,
         some .paymentAlreadyProcessed) := by
  have htid : p.transactionID = tid := by
    have := List.find?_some hfind
    simpa using this
  by_cases hs : s1 = "SUCCESS"
  · have hfst : (processPaymentCallback pst ost tid s1 r1 n1).1
        = { pst with payments := savePayment pst.payments (p.markAsSuccess n1) } := by
      simp [processPaymentCallback, hfind, hnt, hs]
    have hfind' : findPaymentByTransactionID
        (savePayment pst.payments (p.markAsSuccess n1)) tid
        = some (p.markAsSuccess n1) :=
      findPaymentByTransactionID_savePayment hfind rfl htid
    have hfind2 : findPaymentByTransactionID
        (processPaymentCallback pst ost tid s1 r1 n1).1.payments tid
        = some (p.markAsSuccess n1) := by
      rw [hfst]
      exact hfind'
    constructor
    · rw [hfind2]
      simp [Payment.markAsSuccess, hs]
    · exact processPaymentCallback_terminal hfind2
        (by simp [Payment.isSuccess, Payment.markAsSuccess]) s2 r2 n2
  · have hfst : (processPaymentCallback pst ost tid s1 r1 n1).1
        = { pst with payments := savePayment pst.payments (p.markAsFailed r1) } := by
      simp [processPaymentCallback, hfind, hnt, hs]
    have hfind' : findPaymentByTransactionID
        (savePayment pst.payments (p.markAsFailed r1)) tid
        = some (p.markAsFailed r1) :=
      findPaymentByTransactionID_savePayment hfind rfl htid
    have hfind2 : findPaymentByTransactionID
        (processPaymentCallback pst ost tid s1 r1 n1).1.payments tid
        = some (p.markAsFailed r1) := by
      rw [hfst]
      exact hfind'
    constructor
    · rw [hfind2]
      simp [Payment.markAsFailed, hs]
    · exact processPaymentCallback_terminal hfind2
        (by simp [Payment.isFailed, Payment.markAsFailed]) s2 r2 n2

/-- Witness for C2 (amended): on the concrete PENDING payment TXN-1, a
first SUCCESS callback writes the terminal SUCCESS status and a second
callback observes `PaymentAlreadyProcessed` with the stores unchanged. -/
theorem C2_serialized_callbacks_exactly_once_witness :
    ((findPaymentByTransactionID
        (processPaymentCallback (samplePaymentSt "PENDING") (sampleOrderSt "PENDING")
          "TXN-1" "SUCCESS" "" 4).1.payments "TXN-1").map Payment.status
      = some (if ("SUCCESS" : String) = "SUCCESS" then "SUCCESS" else "FAILED"))
    ∧ processPaymentCallback
        (processPaymentCallback (samplePaymentSt "PENDING") (sampleOrderSt "PENDING")
          "TXN-1" "SUCCESS" "" 4).1
        (processPaymentCallback (samplePaymentSt "PENDING") (sampleOrderSt "PENDING")
          "TXN-1" "SUCCESS" "" 4).2.1 "TXN-1" "FAILED" "late" 9
      = ((processPaymentCallback (samplePaymentSt "PENDING") (sampleOrderSt "PENDING")
            "TXN-1" "SUCCESS" "" 4).1,
         (processPaymentCallback (samplePaymentSt "PENDING") (sampleOrderSt "PENDING")
            "TXN-1" "SUCCESS" "" 4).2.1,
         some .paymentAlreadyProcessed) :=
  C2_serialized_callbacks_exactly_once (samplePaymentSt "PENDING")
    (sampleOrderSt "PENDING") "TXN-1" "SUCCESS" "" "FAILED" "late" 4 9
    (samplePayment "PENDING") (by decide) (by decide)

/- ### Stock-fold infrastructure for checkout / cancellation -/

/-- Projection of an order item to its stock-relevant data. -/
def OrderItem.pair (it : OrderItem) : Nat × Int := (it.productID, it.quantity)

/-- Projection of a request item to its stock-relevant data. -/
def OrderItemRequest.pair (it : OrderItemRequest) : Nat × Int :=
  (it.productID, it.quantity)

/-- The net effect on the products table of reserving each
(productID, quantity) pair in turn. -/
def reducePairs (ps : Products) (l : List (Nat × Int)) : Products :=
  l.foldl (fun ps pr => updateStockRow ps pr.1 (-pr.2)) ps

/-- The net effect on the products table of restoring each
(productID, quantity) pair in turn. -/
def restorePairs (ps : Products) (l : List (Nat × Int)) : Products :=
  l.foldl (fun ps pr => updateStockRow ps pr.1 pr.2) ps

theorem updRow_comm (a b : Nat) (d e : Int) (p : Product) :
    updRow b e (updRow a d p) = updRow a d (updRow b e p) := by
  obtain ⟨pid, pprice, pstock⟩ := p
  by_cases hpa : pid = a
  · by_cases hpb : pid = b
    · obtain rfl : a = b := hpa.symm.trans hpb
      simp only [updRow, hpa, if_pos rfl]
      simp [Product.mk.injEq]
      omega
    · have hab : ¬ (a = b) := fun hh => hpb (hpa.trans hh)
      simp [updRow, hpa, hpb, hab]
  · by_cases hpb : pid = b
    · have hba : ¬ (b = a) := fun hh => hpa (hpb.trans hh)
      simp [updRow, hpa, hpb, hba]
    · simp [updRow, hpa, hpb]

theorem updRow_cancel (a : Nat) (q : Int) (p : Product) :
    updRow a q (updRow a (-q) p) = p := by
  obtain ⟨pid, pprice, pstock⟩ := p
  by_cases hpa : pid = a
  · simp only [updRow, hpa, if_pos rfl]
    simp [Product.mk.injEq]
  · simp [updRow, hpa]

theorem updateStockRow_comm (ps : Products) (a b : Nat) (d e : Int) :
    updateStockRow (updateStockRow ps a d) b e
      = updateStockRow (updateStockRow ps b e) a d := by
  simp only [updateStockRow, List.map_map]
  congr 1
  funext p
  exact updRow_comm a b d e p

theorem updateStockRow_cancel (ps : Products) (a : Nat) (q : Int) :
    updateStockRow (updateStockRow ps a (-q)) a q = ps := by
  have : ps.map (updRow a q ∘ updRow a (-q)) = ps.map id := by
    apply List.map_congr_left
    intro p _
    exact updRow_cancel a q p
  simpa [updateStockRow, List.map_map] using this

theorem updateStockRow_reducePairs_comm (ps : Products) (l : List (Nat × Int))
    (a : Nat) (q : Int) :
    updateStockRow (reducePairs ps l) a q = reducePairs (updateStockRow ps a q) l := by
  induction l generalizing ps with
  | nil => rfl
  | cons pr l ih =>
    show updateStockRow (reducePairs (updateStockRow ps pr.1 (-pr.2)) l) a q = _
    rw [ih, updateStockRow_comm]
    rfl

/-- Restoring exactly the pairs that were reserved returns the products
table to its initial value. -/
theorem restorePairs_reducePairs (ps : Products) (l : List (Nat × Int)) :
    restorePairs (reducePairs ps l) l = ps := by
  induction l generalizing ps with
  | nil => rfl
  | cons pr l ih =>
    show restorePairs
      (updateStockRow (reducePairs (updateStockRow ps pr.1 (-pr.2)) l) pr.1 pr.2) l = ps
    rw [updateStockRow_reducePairs_comm, updateStockRow_cancel]
    exact ih _

/-- Characterization of a successful checkout loop: the produced items
extend the accumulator by one item per request item (same product and
quantity, snapshot price, subtotal = price × quantity), the running total
grows by exactly the sum of the new subtotals, and the products table is
the fold of the per-item reservations. -/
theorem checkoutLoop_ok {reqItems : List OrderItemRequest} {ps ps' : Products}
    {acc ois : List OrderItem} {total t : ℚ}
    (h : checkoutLoop ps reqItems acc total = (ps', .ok (ois, t))) :
    ∃ new : List OrderItem,
      ois = acc ++ new
      ∧ t = total + (new.map OrderItem.subtotal).sum
      ∧ new.map OrderItem.pair = reqItems.map OrderItemRequest.pair
      ∧ (∀ it ∈ new, it.subtotal = it.price * (it.quantity : ℚ))
      ∧ ps' = reducePairs ps (reqItems.map OrderItemRequest.pair) := by
  induction reqItems generalizing ps acc total with
  | nil =>
    simp only [checkoutLoop, Prod.mk.injEq, Except.ok.injEq] at h
    obtain ⟨rfl, rfl, rfl⟩ := h
    exact ⟨[], by simp, by simp, by simp, by simp, rfl⟩
  | cons item rest ih =>
    rw [checkoutLoop] at h
    split at h
    · simp at h
    · next product hfp =>
      split at h
      · next hhs =>
        split at h
        · simp at h
        · next ps1 hred =>
          simp only [reduceStock, hfp, hhs, if_true, Prod.mk.injEq] at hred
          obtain ⟨hps1, -⟩ := hred
          subst hps1
          simp only at h
          obtain ⟨new, hois, ht, hpairs, hsub, hps⟩ := ih h
          refine ⟨{ productID := item.productID, quantity := item.quantity,
                    price := product.price,
                    subtotal := product.price * (item.quantity : ℚ) } :: new,
            ?_, ?_, ?_, ?_, ?_⟩
          · simpa using hois
          · rw [ht]
            simp only [List.map_cons, List.sum_cons]
            ring
          · simp [hpairs, OrderItem.pair, OrderItemRequest.pair]
          · intro it hit
            rcases List.mem_cons.mp hit with hit | hit
            · subst hit
              simp
            · exact hsub it hit
          · simpa [reducePairs] using hps
      · simp at h

/-- Characterization of a successful `Checkout`: the returned order is
PENDING, owned by the caller, carries the next order id, its total is the
sum of its items' subtotals, every subtotal is snapshot price ×
quantity, its items mirror the request items, the products table is the
fold of the reservations, and the order is appended to the orders
table. -/
theorem checkout_ok {st st' : OrderSt} {userID : Nat} {req : CheckoutRequest}
    {o : Order} (h : checkout st userID req = (st', .ok o)) :
    o.id = st.nextOrderID
    ∧ o.userID = userID
    ∧ o.status = "PENDING"
    ∧ o.totalAmount = (o.items.map OrderItem.subtotal).sum
    ∧ (∀ it ∈ o.items, it.subtotal = it.price * (it.quantity : ℚ))
    ∧ o.items.map OrderItem.pair = req.items.map OrderItemRequest.pair
    ∧ st'.products = reducePairs st.products (req.items.map OrderItemRequest.pair)
    ∧ st'.orders = st.orders ++ [o]
    ∧ st'.nextOrderID = st.nextOrderID + 1 := by
  rw [checkout] at h
  rcases hlen : req.items.length with _ | _
  · rw [hlen] at h
    simp at h
  · rw [hlen] at h
    simp only [Nat.succ_ne_zero, if_false] at h
    rcases hloop : checkoutLoop st.products req.items [] 0 with ⟨ps', res⟩
    rcases res with e | ok
    · rw [hloop] at h
      simp at h
    · rcases ok with ⟨ois, tot⟩
      rw [hloop] at h
      simp only [Prod.mk.injEq, Except.ok.injEq] at h
      obtain ⟨hst, ho⟩ := h
      obtain ⟨new, hois, ht, hpairs, hsub, hps⟩ := checkoutLoop_ok hloop
      subst ho
      subst hst
      simp only [List.nil_append] at hois
      subst hois
      refine ⟨rfl, rfl, rfl, ?_, hsub, hpairs, hps, rfl, rfl⟩
      simpa using ht

/- ### Lookup lemmas for the orders table -/

theorem find?_append_new {orders : List Order} {o : Order}
    (h : ∀ x ∈ orders, x.id ≠ o.id) :
    (orders ++ [o]).find? (fun x => x.id = o.id) = some o := by
  induction orders with
  | nil => simp
  | cons q qs ih =>
    have hq : ¬ (q.id = o.id) := h q (List.mem_cons_self q qs)
    rw [List.cons_append, List.find?_cons_of_neg _ (by simp [hq])]
    exact ih (fun x hx => h x (List.mem_cons_of_mem q hx))

theorem findOrder_saveOrder_self {orders : List Order} {o o' : Order}
    (h : orders.find? (fun x => x.id = o'.id) = some o) :
    (saveOrder orders o').find? (fun x => x.id = o'.id) = some o' := by
  induction orders with
  | nil => simp [List.find?] at h
  | cons q qs ih =>
    by_cases hq : q.id = o'.id
    · simp only [saveOrder, List.map_cons, if_pos hq]
      rw [List.find?_cons_of_pos _ (by simp)]
    · rw [List.find?_cons_of_neg _ (by simp [hq])] at h
      simp only [saveOrder, List.map_cons, if_neg hq]
      rw [List.find?_cons_of_neg _ (by simp [hq])]
      exact ih h

theorem findOrder_saveOrder_other {orders : List Order} {o' : Order} {q : Nat}
    (hne : o'.id ≠ q) :
    (saveOrder orders o').find? (fun x => x.id = q)
      = orders.find? (fun x => x.id = q) := by
  induction orders with
  | nil => rfl
  | cons x xs ih =>
    by_cases hx : x.id = o'.id
    · have hxq : ¬ (x.id = q) := fun hh => hne (hx.symm.trans hh)
      simp only [saveOrder, List.map_cons, if_pos hx]
      rw [List.find?_cons_of_neg _ (by simp [hne]),
        List.find?_cons_of_neg _ (by simp [hxq])]
      exact ih
    · simp only [saveOrder, List.map_cons, if_neg hx]
      by_cases hxq : x.id = q
      · rw [List.find?_cons_of_pos _ (by simp [hxq]),
          List.find?_cons_of_pos _ (by simp [hxq])]
      · rw [List.find?_cons_of_neg _ (by simp [hxq]),
          List.find?_cons_of_neg _ (by simp [hxq])]
        exact ih

/- ### The creation-fixed core of an order row -/

/-- The fields of an order row fixed at creation: identity, total amount
and items. -/
def orderCore (o : Order) : Nat × ℚ × List OrderItem := (o.id, o.totalAmount, o.items)

theorem updateStatus_core (o : Order) (s : String) :
    orderCore (o.updateStatus s).1 = orderCore o := by
  unfold Order.updateStatus
  split_ifs <;> rfl

theorem updateStatus_id (o : Order) (s : String) :
    (o.updateStatus s).1.id = o.id := by
  unfold Order.updateStatus
  split_ifs <;> rfl

/-- After a `db.Save` of a row `o'` with the id of the row previously
found under that id and the same creation-fixed core, every id-lookup's
core projection is unchanged. -/
theorem find?_saveOrder_core {orders : List Order} {oid : Nat} {order o' : Order}
    (hf : orders.find? (fun x => x.id = oid) = some order)
    (hid : o'.id = order.id) (hcore : orderCore o' = orderCore order) (q : Nat) :
    ((saveOrder orders o').find? (fun x => x.id = q)).map orderCore
      = (orders.find? (fun x => x.id = q)).map orderCore := by
  have hoid : order.id = oid := by
    have := List.find?_some hf
    simpa using this
  by_cases hq : o'.id = q
  · subst hq
    have h1 : orders.find? (fun x => x.id = o'.id) = some order := by
      rw [hid, hoid]
      exact hf
    rw [findOrder_saveOrder_self h1, h1]
    simp [hcore]
  · rw [findOrder_saveOrder_other hq]

/-- `UpdateOrderStatus` never changes any order's creation-fixed core. -/
theorem updateOrderStatus_core_preserved (st : OrderSt) (uid oid : Nat)
    (s : String) (adm : Bool) (q : Nat) :
    (findOrder (updateOrderStatus st uid oid s adm).1 q).map orderCore
      = (findOrder st q).map orderCore := by
  rcases hf : findOrder st oid with _ | order
  all_goals simp only [findOrder] at hf
  · simp [updateOrderStatus, findOrder, hf]
  · rcases hus : order.updateStatus s with ⟨o', b⟩
    by_cases hg : (!adm && !(order.isOwner uid)) = true
    · simp [updateOrderStatus, findOrder, hf, hg]
    · rcases b with _ | _
      · simp [updateOrderStatus, findOrder, hf, hg, hus]
      · have hid : o'.id = order.id := by
          have := updateStatus_id order s
          rw [hus] at this
          exact this
        have hcore : orderCore o' = orderCore order := by
          have := updateStatus_core order s
          rw [hus] at this
          exact this
        simpa [updateOrderStatus, findOrder, hf, hg, hus]
          using find?_saveOrder_core hf hid hcore q

/-- `MarkAsPaid` never changes any order's creation-fixed core. -/
theorem markAsPaid_core_preserved (st : OrderSt) (oid : Nat) (q : Nat) :
    (findOrder (markAsPaid st oid).1 q).map orderCore
      = (findOrder st q).map orderCore := by
  rcases hf : findOrder st oid with _ | order
  all_goals simp only [findOrder] at hf
  · simp [markAsPaid, findOrder, hf]
  · by_cases hp : (!order.isPending) = true
    · simp [markAsPaid, findOrder, hf, hp]
    · simpa [markAsPaid, findOrder, hf, hp]
        using @find?_saveOrder_core st.orders oid order
          { order with status := "PAID" } hf rfl rfl q

/-- `CancelOrder` never changes any order's creation-fixed core. -/
theorem cancelOrder_core_preserved (st : OrderSt) (uid oid : Nat) (q : Nat) :
    (findOrder (cancelOrder st uid oid).1 q).map orderCore
      = (findOrder st q).map orderCore := by
  rcases hf : findOrder st oid with _ | order
  all_goals simp only [findOrder] at hf
  · simp [cancelOrder, findOrder, hf]
  · by_cases ho : (!(order.isOwner uid)) = true
    · simp [cancelOrder, findOrder, hf, ho]
    · by_cases hc : (!order.canBeCancelled) = true
      · simp [cancelOrder, findOrder, hf, ho, hc]
      · simpa [cancelOrder, findOrder, hf, ho, hc]
        using @find?_saveOrder_core st.orders oid order
          { order with status := "CANCELLED" } hf rfl rfl q

/-- C8: immediately after a successful checkout the order's totalAmount
equals the sum of its items' subtotals, each subtotal being the snapshot
unit price times the quantity; and no status transition, `MarkAsPaid` or
cancellation ever modifies any order's totalAmount or items (only the
status field is rewritten). -/
theorem C8_total_invariant (st st' : OrderSt) (userID : Nat)
    (req : CheckoutRequest) (o : Order)
    (h : checkout st userID req = (st', .ok o)) :
    o.totalAmount = (o.items.map OrderItem.subtotal).sum
    ∧ (∀ it ∈ o.items, it.subtotal = it.price * (it.quantity : ℚ))
    ∧ (∀ st2 uid oid s adm q,
        (findOrder (updateOrderStatus st2 uid oid s adm).1 q).map orderCore
          = (findOrder st2 q).map orderCore)
    ∧ (∀ st2 oid q,
        (findOrder (markAsPaid st2 oid).1 q).map orderCore
          = (findOrder st2 q).map orderCore)
    ∧ (∀ st2 uid oid q,
        (findOrder (cancelOrder st2 uid oid).1 q).map orderCore
          = (findOrder st2 q).map orderCore) := by
  obtain ⟨-, -, -, htot, hsub, -, -, -, -⟩ := checkout_ok h
  exact ⟨htot, hsub,
    fun st2 uid oid s adm q => updateOrderStatus_core_preserved st2 uid oid s adm q,
    fun st2 oid q => markAsPaid_core_preserved st2 oid q,
    fun st2 uid oid q => cancelOrder_core_preserved st2 uid oid q⟩

/-- Witness for C8: the concrete checkout of 3 units at price 5 from
stock 10 yields an order with totalAmount 15 = the sum of its single
item's subtotal, and marking the sample PENDING order paid leaves its
core (id, totalAmount, items) unchanged. -/
theorem C8_total_invariant_witness :
    (mkOrder 1 10 15 "PENDING" [{ productID := 1, quantity := 3, price := 5, subtotal := 15 }]).totalAmount
      = ((mkOrder 1 10 15 "PENDING" [{ productID := 1, quantity := 3, price := 5, subtotal := 15 }]).items.map OrderItem.subtotal).sum
    ∧ (findOrder (markAsPaid (sampleOrderSt "PENDING") 1).1 1).map orderCore
      = (findOrder (sampleOrderSt "PENDING") 1).map orderCore := by
  have hco : checkout
      { products := [{ id := 1, price := 5, stock := 10 }], orders := [], nextOrderID := 1 }
      10 { items := [{ productID := 1, quantity := 3 }], shippingAddress := "", notes := "" }
      = ({ products := [{ id := 1, price := 5, stock := 7 }]
           orders := [mkOrder 1 10 15 "PENDING"
             [{ productID := 1, quantity := 3, price := 5, subtotal := 15 }]]
           nextOrderID := 2 },
         .ok (mkOrder 1 10 15 "PENDING"
           [{ productID := 1, quantity := 3, price := 5, subtotal := 15 }])) := by
    norm_num [checkout, checkoutLoop, findProduct, reduceStock, Product.hasStock,
      updateStockRow, updRow, mkOrder, List.find?]
  have h := C8_total_invariant
    { products := [{ id := 1, price := 5, stock := 10 }], orders := [], nextOrderID := 1 }
    { products := [{ id := 1, price := 5, stock := 7 }]
      orders := [mkOrder 1 10 15 "PENDING"
        [{ productID := 1, quantity := 3, price := 5, subtotal := 15 }]]
      nextOrderID := 2 }
    10 { items := [{ productID := 1, quantity := 3 }], shippingAddress := "", notes := "" }
    (mkOrder 1 10 15 "PENDING" [{ productID := 1, quantity := 3, price := 5, subtotal := 15 }])
    hco
  exact ⟨h.1, h.2.2.2.1 (sampleOrderSt "PENDING") 1 1⟩

/-- C4: `CancelOrder` fails with `Unauthorized` for a non-owner and with
`OrderNotCancellable` for a non-PENDING order, leaving the whole state
unchanged in both cases; on success it restores each item's quantity to
the product's stock and saves the order with status CANCELLED; and for an
order created by a successful checkout, cancelling it returns every
product's stock to its pre-checkout value. -/
theorem C4_cancel_order (st : OrderSt) (userID orderID : Nat) (o : Order)
    (h : findOrder st orderID = some o) :
    (o.isOwner userID = false → cancelOrder st userID orderID = (st, some .unauthorized))
    ∧ (o.isOwner userID = true → o.canBeCancelled = false →
        cancelOrder st userID orderID = (st, some .orderNotCancellable))
    ∧ (o.isOwner userID = true → o.status = "PENDING" →
        cancelOrder st userID orderID
          = ({ st with
                products := o.items.foldl
                  (fun ps it => restoreStock ps it.productID it.quantity) st.products
                orders := saveOrder st.orders { o with status := "CANCELLED" } },
             none))
    ∧ (∀ st0 req st1, checkout st0 userID req = (st1, .ok o) →
        (∀ x ∈ st0.orders, x.id ≠ o.id) →
        (cancelOrder st1 userID o.id).2 = none
        ∧ (cancelOrder st1 userID o.id).1.products = st0.products
        ∧ findOrder (cancelOrder st1 userID o.id).1 o.id
            = some { o with status := "CANCELLED" }) := by
  refine ⟨fun hown => ?_, fun hown hcanc => ?_, fun hown hpend => ?_,
    fun st0 req st1 hco hnew => ?_⟩
  · simp [cancelOrder, h, hown]
  · simp [cancelOrder, h, hown, hcanc]
  · have hcanc : o.canBeCancelled = true := by
      simp [Order.canBeCancelled, hpend]
    simp [cancelOrder, h, hown, hcanc]
  · obtain ⟨-, houser, hstat, -, -, hpairs, hprod, horders, -⟩ := checkout_ok hco
    have hfind1 : findOrder st1 o.id = some o := by
      rw [findOrder, horders]
      exact find?_append_new hnew
    have hown : o.isOwner userID = true := by
      simp [Order.isOwner, houser]
    have hcanc : o.canBeCancelled = true := by
      simp [Order.canBeCancelled, hstat]
    have hfold : o.items.foldl
        (fun ps it => restoreStock ps it.productID it.quantity) st1.products
        = st0.products := by
      have h1 : restorePairs st1.products (o.items.map OrderItem.pair)
          = o.items.foldl
              (fun ps it => restoreStock ps it.productID it.quantity) st1.products := by
        rw [restorePairs, List.foldl_map]
        rfl
      rw [← h1, hpairs, hprod, restorePairs_reducePairs]
    have hres : cancelOrder st1 userID o.id
        = ({ st1 with
              products := st0.products
              orders := saveOrder st1.orders { o with status := "CANCELLED" } },
           none) := by
      rw [← hfold]
      simp [cancelOrder, hfind1, hown, hcanc]
    refine ⟨by rw [hres], by rw [hres], ?_⟩
    rw [hres]
    have hsave : st1.orders.find?
        (fun x => x.id = ({ o with status := "CANCELLED" } : Order).id)
        = some o := hfind1
    simpa [findOrder] using findOrder_saveOrder_self hsave

/-- Witness for C4: scenario 1/2 of the spec — checkout of 3 units from
stock 10 at price 5 by user 10, then `CancelOrder` by the owner: no
error, product stock back to 10, order status CANCELLED; and a
cancellation attempt by non-owner 11 fails with `Unauthorized` leaving
the state unchanged. -/
theorem C4_cancel_order_witness :
    ((cancelOrder
        ({ products := [{ id := 1, price := 5, stock := 7 }]
           orders := [mkOrder 1 10 15 "PENDING"
             [{ productID := 1, quantity := 3, price := 5, subtotal := 15 }]]
           nextOrderID := 2 } : OrderSt) 10 1).2 = none)
    ∧ ((cancelOrder
        ({ products := [{ id := 1, price := 5, stock := 7 }]
           orders := [mkOrder 1 10 15 "PENDING"
             [{ productID := 1, quantity := 3, price := 5, subtotal := 15 }]]
           nextOrderID := 2 } : OrderSt) 10 1).1.products
      = [{ id := 1, price := 5, stock := 10 }])
    ∧ (findOrder (cancelOrder
        ({ products := [{ id := 1, price := 5, stock := 7 }]
           orders := [mkOrder 1 10 15 "PENDING"
             [{ productID := 1, quantity := 3, price := 5, subtotal := 15 }]]
           nextOrderID := 2 } : OrderSt) 10 1).1 1
      = some (mkOrder 1 10 15 "CANCELLED"
          [{ productID := 1, quantity := 3, price := 5, subtotal := 15 }]))
    ∧ (cancelOrder
        ({ products := [{ id := 1, price := 5, stock := 7 }]
           orders := [mkOrder 1 10 15 "PENDING"
             [{ productID := 1, quantity := 3, price := 5, subtotal := 15 }]]
           nextOrderID := 2 } : OrderSt) 11 1
      = (({ products := [{ id := 1, price := 5, stock := 7 }]
            orders := [mkOrder 1 10 15 "PENDING"
              [{ productID := 1, quantity := 3, price := 5, subtotal := 15 }]]
            nextOrderID := 2 } : OrderSt), some .unauthorized)) := by
  have hco : checkout
      { products := [{ id := 1, price := 5, stock := 10 }], orders := [], nextOrderID := 1 }
      10 { items := [{ productID := 1, quantity := 3 }], shippingAddress := "", notes := "" }
      = ({ products := [{ id := 1, price := 5, stock := 7 }]
           orders := [mkOrder 1 10 15 "PENDING"
             [{ productID := 1, quantity := 3, price := 5, subtotal := 15 }]]
           nextOrderID := 2 },
         .ok (mkOrder 1 10 15 "PENDING"
           [{ productID := 1, quantity := 3, price := 5, subtotal := 15 }])) := by
    norm_num [checkout, checkoutLoop, findProduct, reduceStock, Product.hasStock,
      updateStockRow, updRow, mkOrder, List.find?]
  have h4 := (C4_cancel_order
      ({ products := [{ id := 1, price := 5, stock := 7 }]
         orders := [mkOrder 1 10 15 "PENDING"
           [{ productID := 1, quantity := 3, price := 5, subtotal := 15 }]]
         nextOrderID := 2 } : OrderSt) 10 1
      (mkOrder 1 10 15 "PENDING"
        [{ productID := 1, quantity := 3, price := 5, subtotal := 15 }])
      (by decide)).2.2.2
    { products := [{ id := 1, price := 5, stock := 10 }], orders := [], nextOrderID := 1 }
    { items := [{ productID := 1, quantity := 3 }], shippingAddress := "", notes := "" }
    ({ products := [{ id := 1, price := 5, stock := 7 }]
       orders := [mkOrder 1 10 15 "PENDING"
         [{ productID := 1, quantity := 3, price := 5, subtotal := 15 }]]
       nextOrderID := 2 } : OrderSt)
    hco (by decide)
  have hunauth := (C4_cancel_order
      ({ products := [{ id := 1, price := 5, stock := 7 }]
         orders := [mkOrder 1 10 15 "PENDING"
           [{ productID := 1, quantity := 3, price := 5, subtotal := 15 }]]
         nextOrderID := 2 } : OrderSt) 11 1
      (mkOrder 1 10 15 "PENDING"
        [{ productID := 1, quantity := 3, price := 5, subtotal := 15 }])
      (by decide)).1 (by decide)
  exact ⟨h4.1, h4.2.1, h4.2.2, hunauth⟩

/- ### Stock non-negativity under checkout / cancel sequences -/

/-- The two stock-mutating workflow operations of the order workflow. -/
inductive WorkflowOp where
  | checkoutOp (userID : Nat) (req : CheckoutRequest)
  | cancelOp (userID : Nat) (orderID : Nat)

/-- The state after an operation: the state component returned by the
service call, whether or not the call reported an error. -/
def applyOp (st : OrderSt) (op : WorkflowOp) : OrderSt :=
  match op with
  | .checkoutOp uid req => (checkout st uid req).1
  | .cancelOp uid oid => (cancelOrder st uid oid).1

/-- State after a finite sequence of operations. -/
def runOps (st : OrderSt) (ops : List WorkflowOp) : OrderSt :=
  ops.foldl applyOp st

/-- Well-formedness enforced at the HTTP boundary: the checkout binding
tag `binding:"required,gt=0"` rejects non-positive quantities before the
service is reached; cancellation requests carry no quantities. -/
def WorkflowOp.wf : WorkflowOp → Prop
  | .checkoutOp _ req => ∀ it ∈ req.items, 0 < it.quantity
  | .cancelOp _ _ => True

/-- All stocks in the table are non-negative. -/
def StocksNonneg (ps : Products) : Prop := ∀ p ∈ ps, 0 ≤ p.stock

/-- Reachable-state invariant: product ids are distinct (primary key),
stocks are non-negative, and every persisted order item has positive
quantity. -/
def StInv (st : OrderSt) : Prop :=
  (st.products.map Product.id).Nodup
  ∧ StocksNonneg st.products
  ∧ (∀ o ∈ st.orders, ∀ it ∈ o.items, 0 < it.quantity)

theorem mem_findProduct_nodup {ps : Products} (hnd : (ps.map Product.id).Nodup)
    {pid : Nat} {p : Product} (h : findProduct ps pid = some p)
    {x : Product} (hx : x ∈ ps) (hxid : x.id = pid) : x = p := by
  induction ps with
  | nil => simp at hx
  | cons q qs ih =>
    simp only [List.map_cons, List.nodup_cons] at hnd
    rcases List.mem_cons.mp hx with rfl | hx
    · rw [findProduct, List.find?_cons_of_pos _ (by simp [hxid])] at h
      injection h
    · by_cases hq : q.id = pid
      · exfalso
        apply hnd.1
        rw [hq, ← hxid]
        exact List.mem_map_of_mem Product.id hx
      · rw [findProduct, List.find?_cons_of_neg _ (by simp [hq])] at h
        exact ih hnd.2 h hx

theorem stocksNonneg_reduce {ps : Products} (hnd : (ps.map Product.id).Nodup)
    (hnn : StocksNonneg ps) {pid : Nat} {p : Product}
    (h : findProduct ps pid = some p) {q : Int} (hq : q ≤ p.stock) :
    StocksNonneg (updateStockRow ps pid (-q)) := by
  intro x hx
  simp only [updateStockRow, List.mem_map] at hx
  obtain ⟨y, hy, rfl⟩ := hx
  by_cases hid : y.id = pid
  · have hyp : y = p := mem_findProduct_nodup hnd h hy hid
    subst hyp
    simp only [updRow, if_pos hid]
    simp
    omega
  · simp only [updRow, if_neg hid]
    exact hnn y hy

theorem stocksNonneg_restore {ps : Products} (hnn : StocksNonneg ps)
    (pid : Nat) {q : Int} (hq : 0 ≤ q) :
    StocksNonneg (updateStockRow ps pid q) := by
  intro x hx
  simp only [updateStockRow, List.mem_map] at hx
  obtain ⟨y, hy, rfl⟩ := hx
  have := hnn y hy
  by_cases hid : y.id = pid
  · simp only [updRow, if_pos hid]
    simp
    omega
  · simp only [updRow, if_neg hid]
    exact this

theorem map_id_updateStockRow (ps : Products) (pid : Nat) (d : Int) :
    (updateStockRow ps pid d).map Product.id = ps.map Product.id := by
  induction ps with
  | nil => rfl
  | cons p ps ih =>
    have hid : (updRow pid d p).id = p.id := by
      unfold updRow
      split_ifs <;> rfl
    simp only [updateStockRow, List.map_cons] at ih ⊢
    rw [hid, ih]

theorem checkoutLoop_products_inv {reqItems : List OrderItemRequest}
    {ps : Products} {acc : List OrderItem} {total : ℚ}
    (hnd : (ps.map Product.id).Nodup) (hnn : StocksNonneg ps) :
    StocksNonneg (checkoutLoop ps reqItems acc total).1
    ∧ ((checkoutLoop ps reqItems acc total).1.map Product.id).Nodup := by
  induction reqItems generalizing ps acc total with
  | nil => exact ⟨hnn, hnd⟩
  | cons item rest ih =>
    rw [checkoutLoop]
    split
    · exact ⟨hnn, hnd⟩
    · next product hfp =>
      split
      · next hhs =>
        split
        · next ps1 e hred =>
          simp [reduceStock, hfp, hhs] at hred
        · next ps1 hred =>
          simp only [reduceStock, hfp, hhs, if_true, Prod.mk.injEq] at hred
          obtain ⟨hps1, -⟩ := hred
          subst hps1
          have hle : item.quantity ≤ product.stock := by
            simpa [Product.hasStock] using hhs
          have hnd' : ((updateStockRow ps item.productID (-item.quantity)).map
              Product.id).Nodup := by
            rw [map_id_updateStockRow]
            exact hnd
          have hnn' : StocksNonneg
              (updateStockRow ps item.productID (-item.quantity)) :=
            stocksNonneg_reduce hnd hnn hfp hle
          exact ih hnd' hnn'
      · exact ⟨hnn, hnd⟩

theorem map_id_restoreFold (ps : Products) (items : List OrderItem) :
    ((items.foldl (fun ps it => restoreStock ps it.productID it.quantity) ps).map
        Product.id)
      = ps.map Product.id := by
  induction items generalizing ps with
  | nil => rfl
  | cons it its ih =>
    rw [List.foldl_cons, ih, restoreStock, map_id_updateStockRow]

theorem stocksNonneg_restoreFold {ps : Products} (hnn : StocksNonneg ps)
    {items : List OrderItem} (hq : ∀ it ∈ items, 0 < it.quantity) :
    StocksNonneg
      (items.foldl (fun ps it => restoreStock ps it.productID it.quantity) ps) := by
  induction items generalizing ps with
  | nil => exact hnn
  | cons it its ih =>
    rw [List.foldl_cons]
    exact ih
      (stocksNonneg_restore hnn it.productID
        (le_of_lt (hq it (List.mem_cons_self it its))))
      (fun x hx => hq x (List.mem_cons_of_mem _ hx))

theorem mem_saveOrder {orders : List Order} {o' x : Order}
    (hx : x ∈ saveOrder orders o') : x = o' ∨ x ∈ orders := by
  simp only [saveOrder, List.mem_map] at hx
  obtain ⟨y, hy, rfl⟩ := hx
  by_cases h : y.id = o'.id
  · exact Or.inl (by simp [h])
  · exact Or.inr (by simpa [h] using hy)

/-- One workflow operation preserves the reachable-state invariant. -/
theorem applyOp_inv {st : OrderSt} {op : WorkflowOp} (hinv : StInv st)
    (hwf : op.wf) : StInv (applyOp st op) := by
  obtain ⟨hnd, hnn, hitems⟩ := hinv
  rcases op with ⟨uid, req⟩ | ⟨uid, oid⟩
  · rw [applyOp, checkout]
    by_cases hlen : req.items.length = 0
    · rw [if_pos hlen]
      exact ⟨hnd, hnn, hitems⟩
    · rw [if_neg hlen]
      rcases hloop : checkoutLoop st.products req.items [] 0 with ⟨ps', res⟩
      have hloopinv := @checkoutLoop_products_inv req.items st.products [] 0 hnd hnn
      rw [hloop] at hloopinv
      rcases res with e | ⟨ois, tot⟩
      · exact ⟨hloopinv.2, hloopinv.1, hitems⟩
      · obtain ⟨new, hois, -, hpairs, -, -⟩ := checkoutLoop_ok hloop
        have hq : ∀ it ∈ ois, 0 < it.quantity := by
          intro it hit
          rw [hois] at hit
          simp only [List.nil_append] at hit
          have hmem : OrderItem.pair it ∈ new.map OrderItem.pair :=
            List.mem_map_of_mem _ hit
          rw [hpairs] at hmem
          obtain ⟨r, hr, hpr⟩ := List.mem_map.mp hmem
          have hqr : r.quantity = it.quantity := congrArg Prod.snd hpr
          rw [← hqr]
          exact hwf r hr
        refine ⟨hloopinv.2, hloopinv.1, ?_⟩
        intro o ho
        rcases List.mem_append.mp ho with ho | ho
        · exact hitems o ho
        · rcases List.mem_singleton.mp ho with rfl
          exact hq
  · rw [applyOp, cancelOrder]
    rcases hf : findOrder st oid with _ | order
    · exact ⟨hnd, hnn, hitems⟩
    · dsimp only
      rcases hb : order.isOwner uid with _ | _
      · exact ⟨hnd, hnn, hitems⟩
      · rcases hc : order.canBeCancelled with _ | _
        · exact ⟨hnd, hnn, hitems⟩
        · have horder : order ∈ st.orders := List.mem_of_find?_eq_some hf
          have hq : ∀ it ∈ order.items, 0 < it.quantity := hitems order horder
          have hstinv : StInv
              ({ products := order.items.foldl
                   (fun ps it => restoreStock ps it.productID it.quantity) st.products
                 orders := saveOrder st.orders { order with status := "CANCELLED" }
                 nextOrderID := st.nextOrderID } : OrderSt) := by
            refine ⟨?_, stocksNonneg_restoreFold hnn hq, ?_⟩
            · simpa [map_id_restoreFold] using hnd
            · intro o ho
              rcases mem_saveOrder ho with rfl | ho
              · exact hq
              · exact hitems o ho
          exact hstinv

theorem runOps_inv {st : OrderSt} {ops : List WorkflowOp} (hinv : StInv st)
    (hwf : ∀ op ∈ ops, op.wf) : StInv (runOps st ops) := by
  induction ops generalizing st with
  | nil => exact hinv
  | cons op ops ih =>
    exact ih (applyOp_inv hinv (hwf op (List.mem_cons_self op ops)))
      (fun x hx => hwf x (List.mem_cons_of_mem _ hx))

/-- C9: starting from a state with no orders, distinct product ids and
all stocks non-negative, every product's stock stays non-negative after
each operation of any finite sequence of well-formed checkout and cancel
operations (well-formed = the quantities are positive, as the HTTP
binding `gt=0` guarantees). -/
theorem C9_stock_nonneg (st0 : OrderSt) (ops : List WorkflowOp)
    (hnd : (st0.products.map Product.id).Nodup)
    (hnn : StocksNonneg st0.products)
    (hord : st0.orders = [])
    (hwf : ∀ op ∈ ops, op.wf) :
    ∀ pre suf, ops = pre ++ suf →
      ∀ p ∈ (runOps st0 pre).products, 0 ≤ p.stock := by
  intro pre suf hsplit p hp
  have hinv0 : StInv st0 := by
    refine ⟨hnd, hnn, ?_⟩
    rw [hord]
    intro o ho
    simp at ho
  have hwfpre : ∀ op ∈ pre, op.wf := fun op hop =>
    hwf op (by rw [hsplit]; exact List.mem_append_left _ hop)
  exact (runOps_inv hinv0 hwfpre).2.1 p hp

/-- Witness for C9: product 1 with stock 2; a checkout of 2 units
followed by a cancellation of the created order; stocks are non-negative
after both operations. -/
theorem C9_stock_nonneg_witness :
    (∀ p ∈ (runOps { products := [{ id := 1, price := 5, stock := 2 }], orders := [], nextOrderID := 1 }
        [WorkflowOp.checkoutOp 10
          { items := [{ productID := 1, quantity := 2 }], shippingAddress := "", notes := "" }]).products,
      0 ≤ p.stock)
    ∧ (∀ p ∈ (runOps { products := [{ id := 1, price := 5, stock := 2 }], orders := [], nextOrderID := 1 }
        [WorkflowOp.checkoutOp 10
          { items := [{ productID := 1, quantity := 2 }], shippingAddress := "", notes := "" },
         WorkflowOp.cancelOp 10 1]).products,
      0 ≤ p.stock) := by
  have hwf : ∀ op ∈
      [WorkflowOp.checkoutOp 10
        { items := [{ productID := 1, quantity := 2 }], shippingAddress := "", notes := "" },
       WorkflowOp.cancelOp 10 1], op.wf := by
    intro op hop
    rcases List.mem_cons.mp hop with rfl | hop
    · intro it hit
      rcases List.mem_cons.mp hit with rfl | hit
      · decide
      · simp at hit
    · rcases List.mem_cons.mp hop with rfl | hop
      · trivial
      · simp at hop
  constructor
  · exact C9_stock_nonneg
      { products := [{ id := 1, price := 5, stock := 2 }], orders := [], nextOrderID := 1 }
      [WorkflowOp.checkoutOp 10
        { items := [{ productID := 1, quantity := 2 }], shippingAddress := "", notes := "" },
       WorkflowOp.cancelOp 10 1]
      (by decide)
      (by
        intro p hp
        rcases List.mem_cons.mp hp with rfl | hp
        · decide
        · simp at hp)
      rfl hwf
      [WorkflowOp.checkoutOp 10
        { items := [{ productID := 1, quantity := 2 }], shippingAddress := "", notes := "" }]
      [WorkflowOp.cancelOp 10 1] rfl
  · exact C9_stock_nonneg
      { products := [{ id := 1, price := 5, stock := 2 }], orders := [], nextOrderID := 1 }
      [WorkflowOp.checkoutOp 10
        { items := [{ productID := 1, quantity := 2 }], shippingAddress := "", notes := "" },
       WorkflowOp.cancelOp 10 1]
      (by decide)
      (by
        intro p hp
        rcases List.mem_cons.mp hp with rfl | hp
        · decide
        · simp at hp)
      rfl hwf
      [WorkflowOp.checkoutOp 10
        { items := [{ productID := 1, quantity := 2 }], shippingAddress := "", notes := "" },
       WorkflowOp.cancelOp 10 1]
      [] (by simp)

end GoCommerce
